import Mathlib

/-!
Verification of the mask-based in-painting editor of this repository
(source: src/components/MaskEditor.tsx).

The component is shallowly embedded as a pure state machine.  Machine
reals of JavaScript are modelled as rationals; the claims under study
assume nondegenerate (positive) display boxes, where rational and
floating-point evaluation of the linear mapping agree symbolically.
A JavaScript exception escaping a handler is modelled as the value
`none` of an `Option` result.  Canvas 2D drawing is modelled as a trace
of drawing commands together with a pixel-sampling semantics: a pixel
is covered by a stroked polyline when its center lies within half the
line width of one of the polyline segments (edge anti-aliasing is
abstracted away), and a subpath holding a single point traces no
segment, as in the HTML canvas path-tracing algorithm.
-/

namespace MaskEditor

/-- A 2D point with rational coordinates. -/
structure Point where
  x : ℚ
  y : ℚ
deriving DecidableEq

/-- One committed stroke: the recorded point path and the recorded brush
diameter, exactly the record pushed by stopDrawing
(`paths.current.push({ points: [...currentPath.current], size: brushSize })`). -/
structure Stroke where
  points : List Point
  size : ℚ
deriving DecidableEq

/-- The on-screen bounding box of the canvas element, as returned by
getBoundingClientRect. -/
structure Rect where
  left : ℚ
  top : ℚ
  width : ℚ
  height : ℚ
deriving DecidableEq

/-- The backing canvas element: its raster dimensions (width/height
attributes) and its current on-screen bounding box. -/
structure Canvas where
  width : ℕ
  height : ℕ
  rect : Rect
deriving DecidableEq

/-- A source image descriptor: its native pixel dimensions. -/
structure SourceImage where
  naturalWidth : ℕ
  naturalHeight : ℕ
deriving DecidableEq

/-- The image-load effect of the component: the canvas raster is sized to
the natural resolution of the source image
(`canvasRef.current.width = img.naturalWidth` and likewise for height),
while the bounding box is whatever CSS layout produces. -/
def mountCanvas (img : SourceImage) (rect : Rect) : Canvas :=
  { width := img.naturalWidth, height := img.naturalHeight, rect := rect }

/-- One coordinate of a touch list entry. -/
structure TouchPoint where
  clientX : ℚ
  clientY : ℚ
deriving DecidableEq

/-- A pointer input event: either a mouse event with client coordinates or
a touch event carrying its (possibly empty) touch list. -/
inductive InputEvent where
  | mouse (clientX clientY : ℚ)
  | touch (touches : List TouchPoint)
deriving DecidableEq

/-- The mutable state of the component: the isDrawing flag, the brushSize
setting, the hasStrokes flag, the committed stroke list `paths`, the
in-progress point list `currentPath`, and the canvas ref (none while the
image has not loaded). -/
structure EditorState where
  isDrawing : Bool
  brushSize : ℚ
  hasStrokes : Bool
  paths : List Stroke
  currentPath : List Point
  canvas : Option Canvas
deriving DecidableEq

/-- getCoordinates (MaskEditor.tsx lines 85-105).  When the canvas ref is
empty it returns the origin.  Otherwise it reads the bounding box, forms
the two scale factors, and maps the client coordinates.  For a touch
event it reads `touches[0]`; on an empty touch list that member access
throws a TypeError, modelled as `none`. -/
def getCoordinates (s : EditorState) (e : InputEvent) : Option Point :=
  match s.canvas with
  | none => some { x := 0, y := 0 }
  | some canvas =>
    let scaleX : ℚ := (canvas.width : ℚ) / canvas.rect.width
    let scaleY : ℚ := (canvas.height : ℚ) / canvas.rect.height
    match e with
    | .touch [] => none
    | .touch (t :: _) =>
      some { x := (t.clientX - canvas.rect.left) * scaleX
           , y := (t.clientY - canvas.rect.top) * scaleY }
    | .mouse clientX clientY =>
      some { x := (clientX - canvas.rect.left) * scaleX
           , y := (clientY - canvas.rect.top) * scaleY }

/-- startDrawing (lines 107-113): sets the isDrawing flag and initializes
currentPath with the single mapped coordinate.  `none` models the
TypeError escaping from getCoordinates. -/
def startDrawing (s : EditorState) (e : InputEvent) : Option EditorState :=
  (getCoordinates s e).map fun coords =>
    { s with isDrawing := true, currentPath := [coords] }

/-- drawMove (lines 115-121): ignored while not drawing, otherwise appends
the mapped coordinate to currentPath. -/
def drawMove (s : EditorState) (e : InputEvent) : Option EditorState :=
  if s.isDrawing then
    (getCoordinates s e).map fun coords =>
      { s with currentPath := s.currentPath ++ [coords] }
  else
    some s

/-- stopDrawing (lines 123-137): while drawing, clears the isDrawing flag;
when currentPath is non-empty it pushes a stroke made of a copy of
currentPath and the current brushSize value, sets hasStrokes and emits
the onMaskChange(true) notification; currentPath is then cleared.  The
second component is the emitted notification, when any. -/
def stopDrawing (s : EditorState) : EditorState × Option Bool :=
  if s.isDrawing then
    if s.currentPath.length > 0 then
      ({ s with isDrawing := false
              , paths := s.paths ++ [{ points := s.currentPath, size := s.brushSize }]
              , hasStrokes := true
              , currentPath := [] }, some true)
    else
      ({ s with isDrawing := false, currentPath := [] }, none)
  else
    (s, none)

/-- clearMask (lines 178-184): empties paths and currentPath, clears the
hasStrokes flag and emits the onMaskChange(false) notification. -/
def clearMask (s : EditorState) : EditorState × Option Bool :=
  ({ s with paths := [], currentPath := [], hasStrokes := false }, some false)

/-- The brush-size slider: onChange sets the brushSize state. -/
def setBrushSize (s : EditorState) (n : ℚ) : EditorState :=
  { s with brushSize := n }

/-- An RGB color. -/
structure Color where
  r : ℕ
  g : ℕ
  b : ℕ
deriving DecidableEq

/-- Pure black, the fill of the protected area. -/
def black : Color := { r := 0, g := 0, b := 0 }

/-- Pure white, the stroke color of the editable area. -/
def white : Color := { r := 255, g := 255, b := 255 }

/-- Canvas line-cap styles. -/
inductive LineCap where
  | butt
  | round
  | square
deriving DecidableEq

/-- Canvas line-join styles. -/
inductive LineJoin where
  | miter
  | round
  | bevel
deriving DecidableEq

/-- A drawing command issued against the offscreen mask canvas. -/
inductive MaskOp where
  | fillRect (color : Color) (x y w h : ℕ)
  | strokePolyline (color : Color) (cap : LineCap) (join : LineJoin)
      (width : ℚ) (points : List Point)
deriving DecidableEq

/-- The color a command paints. -/
def opColor : MaskOp → Color
  | .fillRect c .. => c
  | .strokePolyline c .. => c

/-- Squared distance between two points. -/
def sqDist (p q : Point) : ℚ :=
  (p.x - q.x) ^ 2 + (p.y - q.y) ^ 2

/-- Squared distance from a point to the segment from a to b: the squared
distance to the closest point of the segment, computed by clamping the
orthogonal-projection parameter to the unit interval. -/
def sqDistToSeg (p a b : Point) : ℚ :=
  let dx := b.x - a.x
  let dy := b.y - a.y
  let len2 := dx ^ 2 + dy ^ 2
  if len2 = 0 then sqDist p a
  else
    let t := max 0 (min 1 (((p.x - a.x) * dx + (p.y - a.y) * dy) / len2))
    sqDist p { x := a.x + t * dx, y := a.y + t * dy }

/-- The consecutive-point segments of a polyline.  A list holding fewer
than two points yields no segment, matching the canvas path-tracing
algorithm which removes subpaths with just one point. -/
def segments (ps : List Point) : List (Point × Point) :=
  ps.zip ps.tail

/-- Whether a sample point is painted by a drawing command: inside the
rectangle for a fill, within half the line width of some polyline
segment for a stroke (cap and join round off the same half-width
neighborhood at endpoints and corners; edge anti-aliasing is
abstracted away). -/
def coveredBy (p : Point) : MaskOp → Prop
  | .fillRect _ x y w h =>
      (x : ℚ) ≤ p.x ∧ p.x < (x : ℚ) + w ∧ (y : ℚ) ≤ p.y ∧ p.y < (y : ℚ) + h
  | .strokePolyline _ _ _ width pts =>
      ∃ ab ∈ segments pts, sqDistToSeg p ab.1 ab.2 ≤ (width / 2) ^ 2

instance (p : Point) (op : MaskOp) : Decidable (coveredBy p op) := by
  cases op <;> simp only [coveredBy] <;> infer_instance

/-- The color a sample point receives after the whole command list runs:
later commands paint over earlier ones; `none` is the transparent
initial canvas. -/
def renderPixel (ops : List MaskOp) (p : Point) : Option Color :=
  ops.foldl (fun acc op => if coveredBy p op then some (opColor op) else acc) none

/-- A raster image: dimensions and the color sampled at the center of
each pixel. -/
structure MaskImage where
  width : ℕ
  height : ℕ
  pixel : ℕ → ℕ → Option Color

/-- Rasterize a command list at the given dimensions, sampling each pixel
at its center. -/
def renderImage (w h : ℕ) (ops : List MaskOp) : MaskImage :=
  { width := w, height := h
  , pixel := fun i j => renderPixel ops { x := (i : ℚ) + 1 / 2, y := (j : ℚ) + 1 / 2 } }

/-- A PNG data URL payload.  PNG is lossless, so the encoded payload
carries exactly the raster it encodes; the byte layout is abstracted. -/
structure PNG where
  image : MaskImage

/-- The base64 payload of toDataURL, `toDataURL(...).split(...)[1]`. -/
def encodePNG (img : MaskImage) : PNG :=
  { image := img }

/-- The command trace of getMaskBase64 (lines 60-78): fill the whole
buffer black, then for each stroke in list order, skipping the
degenerate zero-point ones, stroke a white round-capped round-joined
polyline through its points with line width the recorded size. -/
def maskOps (w h : ℕ) (paths : List Stroke) : List MaskOp :=
  MaskOp.fillRect black 0 0 w h ::
    paths.filterMap fun path =>
      if path.points.length < 1 then none
      else some (MaskOp.strokePolyline white .round .round path.size path.points)

/-- getMaskBase64 (lines 47-82): null on an empty stroke list, null when
the canvas ref is empty; otherwise rasterizes the stroke list on an
offscreen canvas of the same dimensions and returns the PNG payload.
A 2D context of a freshly created offscreen canvas is modelled as
always available. -/
def getMaskBase64 (s : EditorState) : Option PNG :=
  if s.paths.length = 0 then none
  else
    match s.canvas with
    | none => none
    | some canvas =>
      some (encodePNG (renderImage canvas.width canvas.height
        (maskOps canvas.width canvas.height s.paths)))

/-- The exportMask operation as seen by the containing application: it
reads the state and returns the mask; getMaskBase64 draws only on a
fresh offscreen canvas (document.createElement) and writes none of the
component refs or state, so the state comes back unchanged. -/
def exportMaskOp (s : EditorState) : EditorState × Option PNG :=
  (s, getMaskBase64 s)

/-- A complete in-progress gesture prefix: a gesture-start event followed
by any number of move events, with no release. -/
def gestureRun (s : EditorState) (e : InputEvent) (moves : List InputEvent) :
    Option EditorState :=
  (startDrawing s e).bind fun s1 => moves.foldlM drawMove s1

/-- The rasterization pipeline as the specification words it: fill the
whole buffer black, then for each committed stroke in list order stroke
a white round-capped round-joined polyline through its points with line
width the recorded brush diameter. -/
def specMaskOps (w h : ℕ) (strokes : List Stroke) : List MaskOp :=
  MaskOp.fillRect black 0 0 w h ::
    strokes.map fun st => MaskOp.strokePolyline white .round .round st.size st.points

/-- An example mounted canvas: an 8 by 6 source image displayed at half
scale in a 4 by 3 on-screen box. -/
def exCanvas : Canvas :=
  mountCanvas { naturalWidth := 8, naturalHeight := 6 }
    { left := 0, top := 0, width := 4, height := 3 }

/-- A freshly mounted editor over exCanvas: idle, nothing drawn. -/
def exWithCanvas : EditorState :=
  { isDrawing := false, brushSize := 20, hasStrokes := false
  , paths := [], currentPath := [], canvas := some exCanvas }

/-- An editor whose image has not loaded yet: idle, nothing drawn, no
canvas raster available. -/
def exNoCanvas : EditorState :=
  { isDrawing := false, brushSize := 20, hasStrokes := false
  , paths := [], currentPath := [], canvas := none }

/-- The state reached from exNoCanvas by a gesture-start: drawing, with
the degenerate origin point recorded. -/
def startedNoCanvas : EditorState :=
  { exNoCanvas with isDrawing := true, currentPath := [{ x := 0, y := 0 }] }

/-- The state reached from exNoCanvas by a complete click gesture while
no canvas raster is available: one committed origin stroke. -/
def committedNoCanvas : EditorState :=
  { exNoCanvas with
    hasStrokes := true,
    paths := [{ points := [{ x := 0, y := 0 }], size := 20 }] }

/-- An editor over exCanvas holding one committed two-point stroke. -/
def committedWithCanvas : EditorState :=
  { exWithCanvas with
    hasStrokes := true,
    paths := [{ points := [{ x := 1, y := 1 }, { x := 2, y := 1 }], size := 2 }] }

/-- The state reached from exWithCanvas by a gesture through client
points (1, 1) and (2, 2), not yet released: both map at scale two. -/
def gestureEnd : EditorState :=
  { exWithCanvas with
    isDrawing := true,
    currentPath := [{ x := 2, y := 2 }, { x := 4, y := 4 }] }

/-- The state reached from exWithCanvas by a stationary click at client
point (1, 1), not yet released. -/
def clickedState : EditorState :=
  { exWithCanvas with isDrawing := true, currentPath := [{ x := 2, y := 2 }] }

theorem getMaskBase64_congr {s t : EditorState} (hp : t.paths = s.paths)
    (hc : t.canvas = s.canvas) : getMaskBase64 t = getMaskBase64 s := by
  unfold getMaskBase64
  rw [hp, hc]

theorem startDrawing_some {s t : EditorState} {e : InputEvent}
    (h : startDrawing s e = some t) :
    ∃ p, getCoordinates s e = some p ∧
      t = { s with isDrawing := true, currentPath := [p] } := by
  unfold startDrawing at h
  cases hg : getCoordinates s e with
  | none => rw [hg] at h; simp at h
  | some p =>
    rw [hg] at h
    simp only [Option.map_some'] at h
    exact ⟨p, rfl, (Option.some.inj h).symm⟩

theorem drawMove_fields {s t : EditorState} {e : InputEvent}
    (h : drawMove s e = some t) : t.paths = s.paths ∧ t.canvas = s.canvas := by
  unfold drawMove at h
  split at h
  · cases hg : getCoordinates s e with
    | none => rw [hg] at h; simp at h
    | some p =>
      rw [hg] at h
      simp only [Option.map_some'] at h
      obtain rfl := Option.some.inj h
      exact ⟨rfl, rfl⟩
  · cases h
    exact ⟨rfl, rfl⟩

theorem foldlM_drawMove_fields (moves : List InputEvent) :
    ∀ s t : EditorState, moves.foldlM drawMove s = some t →
      t.paths = s.paths ∧ t.canvas = s.canvas := by
  induction moves with
  | nil =>
    intro s t h
    simp only [List.foldlM_nil] at h
    cases h
    exact ⟨rfl, rfl⟩
  | cons m ms ih =>
    intro s t h
    rw [List.foldlM_cons] at h
    cases hg : drawMove s m with
    | none =>
      rw [hg] at h
      exact absurd h (by simp)
    | some s1 =>
      rw [hg] at h
      simp only [Option.bind_eq_bind, Option.some_bind] at h
      obtain ⟨h1, h2⟩ := drawMove_fields hg
      obtain ⟨h3, h4⟩ := ih s1 t h
      exact ⟨h3.trans h1, h4.trans h2⟩

theorem maskOps_eq_specMaskOps (w h : ℕ) (paths : List Stroke)
    (hpts : ∀ st ∈ paths, st.points ≠ []) :
    maskOps w h paths = specMaskOps w h paths := by
  unfold maskOps specMaskOps
  congr 1
  induction paths with
  | nil => rfl
  | cons a l ih =>
    have ha : ¬ a.points.length < 1 := by
      intro hlt
      exact hpts a (List.mem_cons_self a l)
        (List.length_eq_zero.mp (Nat.lt_one_iff.mp hlt))
    rw [@List.filterMap_cons_some _ _ (fun path : Stroke =>
          if path.points.length < 1 then none
          else some (MaskOp.strokePolyline white .round .round path.size path.points))
        a l (MaskOp.strokePolyline white .round .round a.size a.points) (by simp [ha]),
      List.map_cons]
    exact congrArg _ (ih fun st hst => hpts st (List.mem_cons_of_mem a hst))

/-- Claim C1: for a non-empty committed stroke list over a loaded canvas,
the exported mask is exactly the PNG encoding of the raster obtained by
filling the whole buffer with pure black and then stroking, for each
committed stroke in list order, a round-capped round-joined pure white
polyline through the points of the stroke with line width the recorded
brush diameter.  Committed strokes always hold at least one point, which
the second hypothesis records. -/
theorem getMaskBase64_eq_specPipeline (s : EditorState) (c : Canvas)
    (hne : s.paths ≠ []) (hpts : ∀ st ∈ s.paths, st.points ≠ [])
    (hc : s.canvas = some c) :
    getMaskBase64 s =
      some (encodePNG (renderImage c.width c.height
        (specMaskOps c.width c.height s.paths))) := by
  have hlen : ¬ s.paths.length = 0 := by simpa [List.length_eq_zero] using hne
  simp only [getMaskBase64, hc, if_neg hlen, maskOps_eq_specMaskOps _ _ _ hpts]

/-- Witness for C1 at a one-stroke state over the 8 by 6 canvas. -/
theorem getMaskBase64_eq_specPipeline_witness :
    committedWithCanvas.paths ≠ [] ∧
    (∀ st ∈ committedWithCanvas.paths, st.points ≠ []) ∧
    getMaskBase64 committedWithCanvas =
      some (encodePNG (renderImage exCanvas.width exCanvas.height
        (specMaskOps exCanvas.width exCanvas.height committedWithCanvas.paths))) :=
  ⟨by decide, by decide,
    getMaskBase64_eq_specPipeline committedWithCanvas exCanvas (by decide) (by decide) rfl⟩

/-- Claim C2 counterexample: a state holding a committed stroke on which
getMaskBase64 nevertheless returns null, because the canvas ref is
empty; the state is reached from the unloaded editor by one complete
click gesture, so the claimed equivalence fails as stated. -/
theorem exportNull_iff_cex :
    (startDrawing exNoCanvas (.mouse 0 0)).map (fun s1 => (stopDrawing s1).1) =
      some committedNoCanvas ∧
    committedNoCanvas.paths ≠ [] ∧
    getMaskBase64 committedNoCanvas = none :=
  ⟨rfl, by decide, rfl⟩

/-- Claim C2 amended: provided the backing canvas is available (mounted
from the source image), getMaskBase64 returns null exactly when the
committed stroke list is empty, and any returned raster has exactly the
native pixel dimensions of the source image, whatever the on-screen
bounding box. -/
theorem exportNull_iff_noPaths (s : EditorState) (img : SourceImage)
    (rect : Rect) (hc : s.canvas = some (mountCanvas img rect)) :
    (getMaskBase64 s = none ↔ s.paths = []) ∧
    ∀ png, getMaskBase64 s = some png →
      png.image.width = img.naturalWidth ∧ png.image.height = img.naturalHeight := by
  constructor
  · constructor
    · intro h
      by_contra hp
      have hlen : ¬ s.paths.length = 0 := by simpa [List.length_eq_zero] using hp
      simp only [getMaskBase64, hc, if_neg hlen] at h
      exact Option.noConfusion h
    · intro h
      simp [getMaskBase64, h]
  · intro png h
    by_cases hlen : s.paths.length = 0
    · simp only [getMaskBase64, if_pos hlen] at h
      exact Option.noConfusion h
    · simp only [getMaskBase64, hc, if_neg hlen] at h
      obtain rfl := Option.some.inj h
      exact ⟨rfl, rfl⟩

/-- Witness for C2 at a one-stroke state over the 8 by 6 source shown in
a 4 by 3 box. -/
theorem exportNull_iff_noPaths_witness :
    (getMaskBase64 committedWithCanvas = none ↔ committedWithCanvas.paths = []) ∧
    ∀ png, getMaskBase64 committedWithCanvas = some png →
      png.image.width = 8 ∧ png.image.height = 6 :=
  exportNull_iff_noPaths committedWithCanvas
    { naturalWidth := 8, naturalHeight := 6 }
    { left := 0, top := 0, width := 4, height := 3 } rfl

/-- Claim C3: over a positive on-screen bounding box the mapper returns
exactly ((clientX - boxLeft) * rasterWidth / boxWidth,
(clientY - boxTop) * rasterHeight / boxHeight), for mouse events and for
touch events with a leading touch point, and in particular the exact
center of the displayed box maps to the exact center of the backing
raster. -/
theorem getCoordinates_formula (s : EditorState) (c : Canvas)
    (hc : s.canvas = some c) (hw : 0 < c.rect.width) (hh : 0 < c.rect.height)
    (clientX clientY : ℚ) (rest : List TouchPoint) :
    getCoordinates s (.mouse clientX clientY) =
      some { x := (clientX - c.rect.left) * c.width / c.rect.width
           , y := (clientY - c.rect.top) * c.height / c.rect.height } ∧
    getCoordinates s (.touch ({ clientX := clientX, clientY := clientY } :: rest)) =
      some { x := (clientX - c.rect.left) * c.width / c.rect.width
           , y := (clientY - c.rect.top) * c.height / c.rect.height } ∧
    getCoordinates s
        (.mouse (c.rect.left + c.rect.width / 2) (c.rect.top + c.rect.height / 2)) =
      some { x := (c.width : ℚ) / 2, y := (c.height : ℚ) / 2 } := by
  have hw' := hw.ne'
  have hh' := hh.ne'
  refine ⟨?_, ?_, ?_⟩ <;>
    simp only [getCoordinates, hc, Option.some.injEq, Point.mk.injEq] <;>
    constructor <;> field_simp <;> ring

/-- Witness for C3 on the 8 by 6 raster shown in a 4 by 3 box. -/
theorem getCoordinates_formula_witness :
    getCoordinates exWithCanvas (.mouse 1 1) =
      some { x := (1 - exCanvas.rect.left) * exCanvas.width / exCanvas.rect.width
           , y := (1 - exCanvas.rect.top) * exCanvas.height / exCanvas.rect.height } ∧
    getCoordinates exWithCanvas (.touch [{ clientX := 1, clientY := 1 }]) =
      some { x := (1 - exCanvas.rect.left) * exCanvas.width / exCanvas.rect.width
           , y := (1 - exCanvas.rect.top) * exCanvas.height / exCanvas.rect.height } ∧
    getCoordinates exWithCanvas
        (.mouse (exCanvas.rect.left + exCanvas.rect.width / 2)
          (exCanvas.rect.top + exCanvas.rect.height / 2)) =
      some { x := (exCanvas.width : ℚ) / 2, y := (exCanvas.height : ℚ) / 2 } :=
  getCoordinates_formula exWithCanvas exCanvas rfl
    (by norm_num [exCanvas, mountCanvas]) (by norm_num [exCanvas, mountCanvas]) 1 1 []

/-- Claim C4: the in-progress stroke never influences the exported mask:
from any state, a gesture-start followed by any number of move events,
with no release, leaves the result of getMaskBase64 unchanged. -/
theorem gesture_preserves_mask (s : EditorState) (e : InputEvent)
    (moves : List InputEvent) (t : EditorState)
    (h : gestureRun s e moves = some t) :
    getMaskBase64 t = getMaskBase64 s := by
  unfold gestureRun at h
  cases hs : startDrawing s e with
  | none =>
    rw [hs] at h
    exact absurd h (by simp)
  | some s1 =>
    rw [hs] at h
    simp only [Option.some_bind] at h
    obtain ⟨p, hp, rfl⟩ := startDrawing_some hs
    obtain ⟨h3, h4⟩ := foldlM_drawMove_fields moves _ t h
    exact getMaskBase64_congr (h3.trans rfl) (h4.trans rfl)

/-- Witness for C4: a two-event gesture over the 8 by 6 canvas. -/
theorem gesture_preserves_mask_witness :
    getMaskBase64 gestureEnd = getMaskBase64 exWithCanvas :=
  gesture_preserves_mask exWithCanvas (.mouse 1 1) [.mouse 2 2] gestureEnd
    (by norm_num [gestureRun, startDrawing, drawMove, getCoordinates, exWithCanvas,
      exCanvas, mountCanvas, gestureEnd, List.foldlM_cons, List.foldlM_nil,
      Point.mk.injEq])

/-- Claim C5 counterexample: brush size is 20 when the gesture starts and
is moved to 50 before release; the committed stroke records diameter 50,
not the setting at the moment the gesture started, so the claim fails as
stated. -/
theorem strokeSize_at_start_cex :
    exNoCanvas.brushSize = 20 ∧
    startDrawing exNoCanvas (.mouse 0 0) = some startedNoCanvas ∧
    (stopDrawing (setBrushSize startedNoCanvas 50)).1.paths =
      [{ points := [{ x := 0, y := 0 }], size := 50 }] ∧
    ∀ st ∈ (stopDrawing (setBrushSize startedNoCanvas 50)).1.paths,
      st.size ≠ exNoCanvas.brushSize :=
  ⟨rfl, rfl, rfl, by decide⟩

/-- Claim C5 amended: the diameter recorded on a committed stroke is the
brush-size setting at the moment the gesture ends (stopDrawing reads the
setting current when it pushes the stroke); and from EVERY state,
including the idle states after a stroke has been committed, changing
the brush-size setting alters neither the committed stroke list (hence
no recorded diameter) nor the result of a subsequent export. -/
theorem strokeSize_at_commit (s : EditorState) (n : ℚ) :
    (s.isDrawing = true → s.currentPath.length > 0 →
      (stopDrawing s).1.paths =
        s.paths ++ [{ points := s.currentPath, size := s.brushSize }]) ∧
    (setBrushSize s n).paths = s.paths ∧
    getMaskBase64 (setBrushSize s n) = getMaskBase64 s := by
  refine ⟨?_, rfl, rfl⟩
  intro h1 h2
  simp [stopDrawing, h1, h2]

/-- Witness for C5: the commit-time conjunct at the one-point in-progress
state, and the invariance conjuncts at an idle state holding a committed
stroke over a loaded canvas. -/
theorem strokeSize_at_commit_witness :
    (stopDrawing startedNoCanvas).1.paths =
      startedNoCanvas.paths ++
        [{ points := startedNoCanvas.currentPath, size := startedNoCanvas.brushSize }] ∧
    (setBrushSize committedWithCanvas 50).paths = committedWithCanvas.paths ∧
    getMaskBase64 (setBrushSize committedWithCanvas 50) =
      getMaskBase64 committedWithCanvas :=
  ⟨(strokeSize_at_commit startedNoCanvas 50).1 rfl (by decide),
   (strokeSize_at_commit committedWithCanvas 50).2.1,
   (strokeSize_at_commit committedWithCanvas 50).2.2⟩

/-- Claim C6 counterexample: with the canvas available, the mapper applied
to a touch event with an empty touch list throws a TypeError (touches[0]
is undefined), modelled as none, instead of returning the origin. -/
theorem emptyTouch_origin_cex :
    getCoordinates exWithCanvas (.touch []) = none ∧
    getCoordinates exWithCanvas (.touch []) ≠ some { x := 0, y := 0 } := by
  refine ⟨rfl, ?_⟩
  intro h
  exact Option.noConfusion ((rfl :
    (none : Option Point) = getCoordinates exWithCanvas (.touch [])).trans h)

/-- Claim C6 amended: the only origin fallback of the mapper is the empty
canvas ref: with no canvas it returns the origin for every event without
throwing, while with a canvas available an empty touch list makes it
throw. -/
theorem getCoordinates_fallback (s : EditorState) (e : InputEvent) (c : Canvas) :
    (s.canvas = none → getCoordinates s e = some { x := 0, y := 0 }) ∧
    (s.canvas = some c → getCoordinates s (.touch []) = none) := by
  constructor
  · intro h
    simp [getCoordinates, h]
  · intro h
    simp [getCoordinates, h]

/-- Witness for C6 on both branches. -/
theorem getCoordinates_fallback_witness :
    getCoordinates exNoCanvas (.mouse 3 3) = some { x := 0, y := 0 } ∧
    getCoordinates exWithCanvas (.touch []) = none :=
  ⟨(getCoordinates_fallback exNoCanvas (.mouse 3 3) exCanvas).1 rfl,
   (getCoordinates_fallback exWithCanvas (.mouse 3 3) exCanvas).2 rfl⟩

/-- Claim C7 counterexample: with no backing canvas, a gesture-start does
not leave all drawing state unchanged: it flips the isDrawing flag and
seeds the in-progress stroke with the origin point. -/
theorem startDrawing_noop_cex :
    startDrawing exNoCanvas (.mouse 5 5) = some startedNoCanvas ∧
    startedNoCanvas.isDrawing ≠ exNoCanvas.isDrawing ∧
    startedNoCanvas.currentPath ≠ exNoCanvas.currentPath :=
  ⟨rfl, by decide, by decide⟩

/-- Claim C7 amended: with no backing canvas at gesture time, startDrawing
raises no error and leaves the committed stroke list and the has-strokes
flag unchanged, but it does not fully no-op: it enters the Drawing state
and seeds the in-progress stroke with the degenerate origin point. -/
theorem startDrawing_noCanvas (s : EditorState) (e : InputEvent)
    (h : s.canvas = none) :
    startDrawing s e =
      some { s with isDrawing := true, currentPath := [{ x := 0, y := 0 }] } := by
  simp [startDrawing, getCoordinates, h]

/-- Witness for C7 from the unloaded editor. -/
theorem startDrawing_noCanvas_witness :
    startDrawing exNoCanvas (.mouse 5 5) =
      some { exNoCanvas with isDrawing := true, currentPath := [{ x := 0, y := 0 }] } :=
  startDrawing_noCanvas exNoCanvas (.mouse 5 5) rfl

/-- Claim C8: clearMask, from any state, empties both the committed stroke
list and the in-progress stroke, clears the has-strokes flag while
emitting the onMaskChange false notification, and a subsequent
getMaskBase64 returns null. -/
theorem clearMask_resets (s : EditorState) :
    (clearMask s).1.paths = [] ∧ (clearMask s).1.currentPath = [] ∧
    (clearMask s).1.hasStrokes = false ∧ (clearMask s).2 = some false ∧
    getMaskBase64 (clearMask s).1 = none :=
  ⟨rfl, rfl, rfl, rfl, rfl⟩

/-- Claim C9: exportMask is side-effect free and idempotent: it hands the
state back unchanged (getMaskBase64 draws only on a fresh offscreen
canvas and writes no component state), so a second call with no
intervening change returns a pixel-identical mask. -/
theorem exportMask_idempotent (s : EditorState) :
    (exportMaskOp s).1 = s ∧
    (exportMaskOp s).1.paths = s.paths ∧
    (exportMaskOp s).1.currentPath = s.currentPath ∧
    (exportMaskOp s).1.hasStrokes = s.hasStrokes ∧
    (exportMaskOp (exportMaskOp s).1).2 = (exportMaskOp s).2 :=
  ⟨rfl, rfl, rfl, rfl, rfl⟩

/-- Claim C10: from a state with no committed strokes over a loaded
canvas, a successful gesture-start followed immediately by release
commits a single one-point stroke, sets the has-strokes flag, emits the
onMaskChange true notification, and getMaskBase64 then returns a
non-null raster of the canvas dimensions that is entirely black: the
one-point polyline traces no segment, so it contributes no white
pixel. -/
theorem bareClick_blackMask (s : EditorState) (c : Canvas) (e : InputEvent)
    (s1 : EditorState) (hc : s.canvas = some c) (hp : s.paths = [])
    (hstart : startDrawing s e = some s1) :
    (stopDrawing s1).1.paths.length = 1 ∧
    (∀ st ∈ (stopDrawing s1).1.paths, st.points.length = 1) ∧
    (stopDrawing s1).1.hasStrokes = true ∧
    (stopDrawing s1).2 = some true ∧
    ∃ png, getMaskBase64 (stopDrawing s1).1 = some png ∧
      png.image.width = c.width ∧ png.image.height = c.height ∧
      ∀ i j : ℕ, i < c.width → j < c.height → png.image.pixel i j = some black := by
  obtain ⟨p, hpc, rfl⟩ := startDrawing_some hstart
  have hstop : stopDrawing { s with isDrawing := true, currentPath := [p] } =
      ({ s with
          isDrawing := false,
          currentPath := [],
          paths := s.paths ++ [{ points := [p], size := s.brushSize }],
          hasStrokes := true }, some true) := by
    simp [stopDrawing]
  rw [hstop]
  refine ⟨by simp [hp], by simp [hp], rfl, rfl, ?_⟩
  refine ⟨encodePNG (renderImage c.width c.height
    (maskOps c.width c.height [{ points := [p], size := s.brushSize }])), ?_, rfl, rfl, ?_⟩
  · simp [getMaskBase64, hp, hc]
  · intro i j hi hj
    have hiq : (i : ℚ) + 1 ≤ c.width := by exact_mod_cast hi
    have hjq : (j : ℚ) + 1 ≤ c.height := by exact_mod_cast hj
    have hfill : coveredBy { x := (i : ℚ) + 1 / 2, y := (j : ℚ) + 1 / 2 }
        (MaskOp.fillRect black 0 0 c.width c.height) := by
      refine ⟨by positivity, ?_, by positivity, ?_⟩
      · push_cast
        linarith
      · push_cast
        linarith
    have hstroke : ¬ coveredBy { x := (i : ℚ) + 1 / 2, y := (j : ℚ) + 1 / 2 }
        (MaskOp.strokePolyline white .round .round s.brushSize [p]) := by
      simp [coveredBy, segments]
    have hops : maskOps c.width c.height [{ points := [p], size := s.brushSize }] =
        [MaskOp.fillRect black 0 0 c.width c.height,
         MaskOp.strokePolyline white .round .round s.brushSize [p]] := by
      simp [maskOps]
    show renderPixel (maskOps c.width c.height [{ points := [p], size := s.brushSize }])
        { x := (i : ℚ) + 1 / 2, y := (j : ℚ) + 1 / 2 } = some black
    rw [hops]
    simp only [renderPixel, List.foldl_cons, List.foldl_nil, if_pos hfill,
      if_neg hstroke, opColor]

/-- Witness for C10: a stationary click at client point (1, 1) over the
8 by 6 canvas shown in a 4 by 3 box. -/
theorem bareClick_blackMask_witness :
    (stopDrawing clickedState).1.paths.length = 1 ∧
    (∀ st ∈ (stopDrawing clickedState).1.paths, st.points.length = 1) ∧
    (stopDrawing clickedState).1.hasStrokes = true ∧
    (stopDrawing clickedState).2 = some true ∧
    ∃ png, getMaskBase64 (stopDrawing clickedState).1 = some png ∧
      png.image.width = exCanvas.width ∧ png.image.height = exCanvas.height ∧
      ∀ i j : ℕ, i < exCanvas.width → j < exCanvas.height →
        png.image.pixel i j = some black :=
  bareClick_blackMask exWithCanvas exCanvas (.mouse 1 1) clickedState rfl rfl
    (by norm_num [startDrawing, getCoordinates, exWithCanvas, exCanvas, mountCanvas,
      clickedState, Point.mk.injEq])

end MaskEditor
